import Mathlib

/-!
Verification of the midikit generic list container (`src/midi/list.c`,
`src/midi/midi.h`) together with models of the RTP / AppleMIDI transport
behaviour described in the specification.  Pointers are modelled as natural
numbers with `0` playing the role of `NULL`; the process-wide
`MIDIErrorNumber` write performed by the precondition macros is modelled as
an explicit `errno` component of each operation result, and the calls a
list makes to its retain / release hooks are modelled as event traces.
-/

/-- POSIX errno value named by the precondition macros: `ENOMEM`. -/
def ENOMEM : Int := 12

/-- POSIX errno value named by the precondition macros: `EFAULT`. -/
def EFAULT : Int := 14

/-- POSIX errno value named by the precondition macros: `EINVAL`. -/
def EINVAL : Int := 22

/-- C object pointers, `0` standing for `NULL`. -/
abbrev Ptr := Nat

/-- The `struct MIDIList` of `src/midi/list.c`: a reference count, the two
item hooks (modelled by whether the function pointer is non-`NULL`) and the
linked entries (modelled as the list of their `item` pointers, head first). -/
structure MIDIList where
  refs : Int
  retain : Bool
  release : Bool
  data : List Ptr
deriving Repr, DecidableEq

/-- Hook events emitted by `_list_item_retain`: the retain callback runs on
the item iff the item and the callback are both non-`NULL`. -/
def listItemRetain (hook : Bool) (item : Ptr) : List Ptr :=
  if item ≠ 0 ∧ hook = true then [item] else []

/-- Hook events emitted by `_list_item_release`: the release callback runs on
the item iff the item and the callback are both non-`NULL`. -/
def listItemRelease (hook : Bool) (item : Ptr) : List Ptr :=
  if item ≠ 0 ∧ hook = true then [item] else []

/-- Result of `MIDIListCreate`: the returned pointer (`none` = `NULL`) and
the errno written, if any.  `allocOk` says whether the single `malloc`
succeeds; on failure `MIDIPrecondReturn` sets `ENOMEM` and returns `NULL`. -/
def MIDIListCreate (allocOk : Bool) (ret rel : Bool) :
    Option MIDIList × Option Int :=
  if allocOk then (some ⟨1, ret, rel, []⟩, none)
  else (none, some ENOMEM)

/-- Result of `MIDIListDestroy` (a `void` function): the errno written, if
any, and the items passed to the release hook, in entry order. -/
structure DestroyResult where
  errno : Option Int
  releases : List Ptr
deriving Repr, DecidableEq

/-- Release events of the entry-freeing loop of `MIDIListDestroy`. -/
def destroyLoop (hook : Bool) : List Ptr → List Ptr
  | [] => []
  | x :: xs => listItemRelease hook x ++ destroyLoop hook xs

/-- Model of `MIDIListDestroy`: walks the entries, releasing each item, then frees the
list; a `NULL` list only sets `errno = EFAULT` and returns. -/
def MIDIListDestroy (list : Option MIDIList) : DestroyResult :=
  match list with
  | none => ⟨some EFAULT, []⟩
  | some l => ⟨none, destroyLoop l.release l.data⟩

/-- Result of `MIDIListAdd`: whether the call dereferenced a `NULL` pointer
(`crashed`), the `int` return value, the list state after the call, the
errno written, if any, and the items passed to the retain hook. -/
structure AddResult where
  crashed : Bool
  ret : Int
  list : Option MIDIList
  errno : Option Int
  retains : List Ptr
deriving Repr, DecidableEq

/-- Model of `MIDIListAdd`: the two `MIDIPrecond` checks, then `malloc` of the new
entry — which the C code dereferences without a `NULL` check, hence
`crashed` when the allocation fails — then the retain hook and head
insertion (`entry->next = list->data; list->data = entry`). -/
def MIDIListAdd (list : Option MIDIList) (item : Ptr) (allocOk : Bool) :
    AddResult :=
  match list with
  | none => ⟨false, EFAULT, none, some EFAULT, []⟩
  | some l =>
    if item = 0 then ⟨false, EINVAL, some l, some EINVAL, []⟩
    else if allocOk then
      ⟨false, 0, some { l with data := item :: l.data }, none,
        listItemRetain l.retain item⟩
    else ⟨true, 0, some l, none, []⟩

/-- Result of `MIDIListRemove`: the `int` return value, the list state after
the call, the errno written, if any, and the items passed to the release
hook, in entry order. -/
structure RemoveResult where
  ret : Int
  list : Option MIDIList
  errno : Option Int
  releases : List Ptr
deriving Repr, DecidableEq

/-- Entry loop of `MIDIListRemove`: unlinks (and releases) every entry whose
item equals `item`, keeping the others in place.  Returns the remaining
entries and the release events. -/
def removeLoop (hook : Bool) (item : Ptr) : List Ptr → List Ptr × List Ptr
  | [] => ([], [])
  | x :: xs =>
    let r := removeLoop hook item xs
    if x = item then (r.1, listItemRelease hook x ++ r.2)
    else (x :: r.1, r.2)

/-- Model of `MIDIListRemove`: the two `MIDIPrecond` checks, then the unlink loop;
always returns `0` after the loop. -/
def MIDIListRemove (list : Option MIDIList) (item : Ptr) : RemoveResult :=
  match list with
  | none => ⟨EFAULT, none, some EFAULT, []⟩
  | some l =>
    if item = 0 then ⟨EINVAL, some l, some EINVAL, []⟩
    else
      let r := removeLoop l.release item l.data
      ⟨0, some { l with data := r.1 }, none, r.2⟩

/-- Result of `MIDIListApply`: the `int` return value (the sum of the
callback results), the unmodified list, and the errno written, if any. -/
structure ApplyResult where
  ret : Int
  list : Option MIDIList
  errno : Option Int
deriving DecidableEq

/-- Model of `MIDIListApply`: the two `MIDIPrecond` checks, then calls `func item
info` for every entry whose item is non-`NULL`, accumulating the results
into `result`.  The list itself is never written. -/
def MIDIListApply (list : Option MIDIList) (info : Ptr)
    (func : Option (Ptr → Ptr → Int)) : ApplyResult :=
  match list with
  | none => ⟨EFAULT, none, some EFAULT⟩
  | some l =>
    match func with
    | none => ⟨EINVAL, some l, some EINVAL⟩
    | some f =>
      ⟨l.data.foldl (fun acc x => if x ≠ 0 then acc + f x info else acc) 0,
        some l, none⟩

/-! Byte- and 14-bit-value macros of `src/midi/midi.h`.  The C operands are
non-negative `int` values, modelled as `Nat` with the corresponding bitwise
operators. -/

/-- The `MIDI_NIBBLE_VALUE( h, l )` macro: `((h)<<4)|((l)&0xf)`. -/
def MIDI_NIBBLE_VALUE (h l : Nat) : Nat := (h <<< 4) ||| (l &&& 0xf)

/-- The `MIDI_HIGH_NIBBLE( b )` macro: `(((b)>>4)&0xf)`. -/
def MIDI_HIGH_NIBBLE (b : Nat) : Nat := (b >>> 4) &&& 0xf

/-- The `MIDI_LOW_NIBBLE( b )` macro: `((b)&0xf)`. -/
def MIDI_LOW_NIBBLE (b : Nat) : Nat := b &&& 0xf

/-- The `MIDI_LONG_VALUE( m, l )` macro: `(((m & 0x7f)<<7) | (l & 0x7f))`. -/
def MIDI_LONG_VALUE (m l : Nat) : Nat := ((m &&& 0x7f) <<< 7) ||| (l &&& 0x7f)

/-- The `MIDI_LSB( v )` macro: `(v) & 0x7f`. -/
def MIDI_LSB (v : Nat) : Nat := v &&& 0x7f

/-- The `MIDI_MSB( v )` macro: `((v)>>7) & 0x7f`. -/
def MIDI_MSB (v : Nat) : Nat := (v >>> 7) &&& 0x7f

/-! Transport-layer models.  The C sources of the RTP transport, the clock
synchronisation and the AppleMIDI session state machine are not part of this
tree; the definitions below are modelled from the wording of the specification
and are marked as such. -/

/-- Modelled from the spec: the missing RTP Transport send path keeps a
16-bit outbound sequence number that is "monotonically increasing per
session per direction" and "wraps modulo 65536"; sending one packet
advances it by one. -/
def nextSeqNum (s : Nat) : Nat := (s + 1) % 65536

/-- Modelled from the spec: the outbound sequence number a session holds
after sending `k` packets, starting from `initial`. -/
def seqNumAfter (initial : Nat) : Nat → Nat
  | 0 => initial
  | k + 1 => nextSeqNum (seqNumAfter initial k)

/-- Modelled from the spec: the latency computation of the missing
clock-sync handler at count 1, "latency = ((t3−t1) − (t2−t1))/2". -/
def computeLatency (t1 t2 t3 : Int) : Int := ((t3 - t1) - (t2 - t1)) / 2

/-- Modelled from the spec: the offset computation of the missing
clock-sync handler at count 1, "offset = t2 − t1 − latency". -/
def computeOffset (t1 t2 t3 : Int) : Int :=
  t2 - t1 - computeLatency t1 t2 t3

/-- Modelled from the spec: the reply a peer sends from inside
`onSyncMessage`, or the handshake completion it records. -/
inductive SyncAction where
  /-- Count 0: echo back a CK1 carrying `t2 = localNow`. -/
  | sendCK1 (t1 t2 : Int)
  /-- Count 1: complete, computing latency and offset, and send CK2. -/
  | sendCK2 (latency offsetVal : Int)
  /-- Count 2: store offset and latency, mark synchronized. -/
  | store (latency offsetVal : Int)
  /-- Any out-of-sequence count is ignored and logged, not fatal. -/
  | ignore
deriving Repr, DecidableEq

/-- Modelled from the spec: `onSyncMessage(count, t1, t2, t3, localNow)`
advancing the CK0→CK1→CK2 exchange. -/
def onSyncMessage (count : Nat) (t1 t2 t3 localNow : Int) : SyncAction :=
  match count with
  | 0 => .sendCK1 t1 localNow
  | 1 => .sendCK2 (computeLatency t1 t2 t3) (computeOffset t1 t2 t3)
  | 2 => .store (computeLatency t1 t2 t3) (computeOffset t1 t2 t3)
  | _ => .ignore

/-- Modelled from the spec: the AppleMIDI session states of §4.2. -/
inductive SessionState where
  | idle
  | inviting
  | invited
  | syncPending
  | established
  | ending
  | closed
deriving Repr, DecidableEq

/-- Modelled from the spec: the part of a Session the control-port handshake
reads — its state and the initiator token sent with the invitation. -/
structure Session where
  state : SessionState
  sentToken : Nat
deriving Repr, DecidableEq

/-- Modelled from the spec: receipt of an acceptance packet while
`Inviting` — "only if the returned token equals the one sent; mismatched or
unknown token is ignored (not an error, just dropped)". -/
def handleAccepted (s : Session) (token : Nat) : Session :=
  if s.state = .inviting ∧ token = s.sentToken then
    { s with state := .invited }
  else s

/-- Modelled from the spec: receipt of a rejection packet while `Inviting` —
a matching token closes the session, any other token is dropped. -/
def handleRejected (s : Session) (token : Nat) : Session :=
  if s.state = .inviting ∧ token = s.sentToken then
    { s with state := .closed }
  else s

/-- Modelled from the spec: one run-loop tick of the missing Message Queue —
up to `cap` queued commands (the per-tick coalescing cap) are taken from the
front and transmitted, the rest stay queued. -/
def queueTick (cap : Nat) (q : List Nat) : List Nat × List Nat :=
  (q.take cap, q.drop cap)

/-- Modelled from the spec: `k` successive run-loop ticks of the Message
Queue, returning the commands transmitted (in transmission order) and the
commands still queued. -/
def queueRun (cap : Nat) : Nat → List Nat → List Nat × List Nat
  | 0, q => ([], q)
  | k + 1, q =>
    let t := queueTick cap q
    let r := queueRun cap k t.2
    (t.1 ++ r.1, r.2)

/-- Modelled from the spec: one MIDI command carried in an RTP-MIDI payload —
"payload = ordered sequence of MIDI commands each with a relative
delta-time"; the raw status/data bytes are carried verbatim over their
declared byte count. -/
structure MIDICommand where
  deltaTime : Nat
  bytes : List Nat
deriving Repr, DecidableEq

/-- Continuation bytes of the MIDI variable-length-quantity encoding: the
7-bit groups of `m`, most significant first, each with the continuation bit
`0x80` set, prepended to `acc`. -/
def vlqEncodeAux : Nat → List Nat → List Nat
  | 0, acc => acc
  | m + 1, acc =>
    vlqEncodeAux ((m + 1) / 128) (((m + 1) % 128 + 128) :: acc)
termination_by m _ => m
decreasing_by simp_wf; omega

/-- Modelled from the spec: the "delta-time variable-length encoded" bytes —
big-endian 7-bit groups, the continuation bit set on all but the last. -/
def vlqEncode (n : Nat) : List Nat :=
  vlqEncodeAux (n / 128) [n % 128]

/-- Decoder of the variable-length quantity, accumulating the 7-bit groups
read so far in `acc`; returns the value and the unconsumed bytes. -/
def vlqDecodeAux (acc : Nat) : List Nat → Option (Nat × List Nat)
  | [] => none
  | b :: rest =>
    if b < 128 then some (acc * 128 + b, rest)
    else vlqDecodeAux (acc * 128 + (b - 128)) rest

/-- Decoder entry point for a variable-length quantity. -/
def vlqDecode (l : List Nat) : Option (Nat × List Nat) := vlqDecodeAux 0 l

/-- Modelled from the spec: the bytes of one command inside the
length-prefixed MIDI command section — the variable-length delta-time,
the declared byte count of the command, then the raw MIDI bytes verbatim. -/
def cmdEncode (c : MIDICommand) : List Nat :=
  vlqEncode c.deltaTime ++ vlqEncode c.bytes.length ++ c.bytes

/-- Decoder of `count` consecutive commands of the MIDI command section. -/
def cmdsDecode : Nat → List Nat → Option (List MIDICommand × List Nat)
  | 0, rest => some ([], rest)
  | count + 1, rest => do
    let (delta, r1) ← vlqDecode rest
    let (len, r2) ← vlqDecode r1
    if len ≤ r2.length then
      let (cmds, r3) ← cmdsDecode count (r2.drop len)
      some (⟨delta, r2.take len⟩ :: cmds, r3)
    else none

/-- Modelled from the spec: the datagram the encode step of the RTP Transport
produces — the fixed 12-byte RTP header (version 2, marker bit and the MIDI
payload type in the second byte, big-endian sequence number, timestamp and
SSRC) followed by the length-prefixed MIDI command section. -/
def transportEncode (payloadType seq ts ssrc : Nat)
    (cmds : List MIDICommand) : List Nat :=
  (2 <<< 6) :: (128 ||| payloadType) ::
  (seq / 256) :: (seq % 256) ::
  (ts / 16777216 % 256) :: (ts / 65536 % 256) :: (ts / 256 % 256) ::
  (ts % 256) ::
  (ssrc / 16777216 % 256) :: (ssrc / 65536 % 256) :: (ssrc / 256 % 256) ::
  (ssrc % 256) ::
  (vlqEncode cmds.length ++ cmds.flatMap cmdEncode)

/-- Modelled from the spec: the decode step of the RTP Transport — validates the RTP
version and payload type (failing otherwise), extracts the sequence number,
timestamp and SSRC, and parses the command section back into the ordered
command list. -/
def transportDecode (payloadType : Nat) (dgram : List Nat) :
    Option (Nat × Nat × Nat × List MIDICommand) :=
  match dgram with
  | b0 :: b1 :: s0 :: s1 :: t0 :: t1 :: t2 :: t3 :: c0 :: c1 :: c2 :: c3 ::
    body =>
    if b0 = 2 <<< 6 ∧ b1 = (128 ||| payloadType) then do
      let (count, r1) ← vlqDecode body
      let (cmds, r2) ← cmdsDecode count r1
      if r2 = [] then
        some (s0 * 256 + s1,
          ((t0 * 256 + t1) * 256 + t2) * 256 + t3,
          ((c0 * 256 + c1) * 256 + c2) * 256 + c3,
          cmds)
      else none
    else none
  | _ => none

/-- One list-mutating call, used to state the retain/release bookkeeping
invariant across whole call sequences. -/
inductive ListOp where
  | add (item : Ptr)
  | remove (item : Ptr)
deriving Repr, DecidableEq

/-- Runs a sequence of `MIDIListAdd` / `MIDIListRemove` calls (allocations
succeeding) against a list, collecting the final list and the retain and
release hook traces. -/
def runOps : MIDIList → List ListOp → MIDIList × List Ptr × List Ptr
  | l, [] => (l, [], [])
  | l, ListOp.add item :: ops =>
    let a := MIDIListAdd (some l) item true
    let r := runOps (a.list.getD l) ops
    (r.1, a.retains ++ r.2.1, r.2.2)
  | l, ListOp.remove item :: ops =>
    let a := MIDIListRemove (some l) item
    let r := runOps (a.list.getD l) ops
    (r.1, r.2.1, a.releases ++ r.2.2)

/-- Number of values the continuation bytes of `vlqEncodeAux m` can carry:
`128` to the number of those bytes. -/
def vlqWeight : Nat → Nat
  | 0 => 1
  | m + 1 => 128 * vlqWeight ((m + 1) / 128)
termination_by m => m
decreasing_by simp_wf; omega

/-! Theorems. -/

/-- Both components of the unlink loop ignore the hook flag as far as the
remaining entries go: they are exactly the entries not equal to `item`. -/
theorem removeLoop_fst (hook : Bool) (item : Ptr) (l : List Ptr) :
    (removeLoop hook item l).1 = l.filter (fun y => y != item) := by
  induction l with
  | nil => rfl
  | cons a l ih =>
    by_cases ha : a = item <;>
      simp [removeLoop, List.filter_cons, ha, ih]

/-- The release events of the unlink loop: one per unlinked entry, i.e. the
number of occurrences of `item`, provided the item is non-`NULL`. -/
theorem removeLoop_snd (hook : Bool) (item : Ptr) (hitem : item ≠ 0)
    (l : List Ptr) :
    (removeLoop hook item l).2 =
      if hook then List.replicate (l.count item) item else [] := by
  induction l with
  | nil => cases hook <;> simp [removeLoop]
  | cons a l ih =>
    by_cases ha : a = item
    · subst ha
      cases hook <;>
        simp [removeLoop, listItemRelease, ih, List.count_cons, hitem,
          List.replicate_succ]
    · cases hook <;>
        simp [removeLoop, ha, ih, List.count_cons, Ne.symm ha]

/-- The release events of the destroy loop: one per non-`NULL` entry when
the hook is set, none otherwise. -/
theorem destroyLoop_eq (hook : Bool) (l : List Ptr) :
    destroyLoop hook l = if hook then l.filter (fun y => y != 0) else [] := by
  induction l with
  | nil => cases hook <;> simp [destroyLoop]
  | cons a l ih =>
    by_cases ha : a = 0 <;> cases hook <;>
      simp [destroyLoop, listItemRelease, ha, ih, List.filter_cons]

/-- Claim C1 (code bug): on allocation failure `MIDIListCreate` does fail
cleanly — it writes `ENOMEM` and returns `NULL`, creating nothing — but
`MIDIListAdd` does not return an error: it dereferences the `NULL` entry
pointer returned by `malloc` (the non-`NULL` item `item + 1` stands for any
valid item). -/
theorem midiList_alloc_failure (l : MIDIList) (item : Ptr) (ret rel : Bool) :
    MIDIListCreate false ret rel = (none, some ENOMEM) ∧
    ENOMEM ≠ 0 ∧
    (MIDIListAdd (some l) (item + 1) false).crashed = true ∧
    (MIDIListAdd (some l) (item + 1) false).list = some l ∧
    (MIDIListAdd (some l) (item + 1) false).retains = [] := by
  refine ⟨rfl, by decide, ?_, ?_, ?_⟩ <;> simp [MIDIListAdd]

/-- Claim C2: a `NULL` list argument makes `MIDIListAdd`, `MIDIListRemove`
and `MIDIListApply` fail synchronously with `EFAULT`, and a `NULL` item
(resp. function) argument with `EINVAL`; the nonzero code is both returned
and recorded in the process-wide error number, no hook runs, and the list is
left unmodified. -/
theorem midiList_null_argument_preconds (l : MIDIList) (item info : Ptr)
    (allocOk : Bool) (f : Ptr → Ptr → Int) :
    EFAULT ≠ 0 ∧ EINVAL ≠ 0 ∧
    MIDIListAdd none item allocOk = ⟨false, EFAULT, none, some EFAULT, []⟩ ∧
    MIDIListAdd (some l) 0 allocOk = ⟨false, EINVAL, some l, some EINVAL, []⟩ ∧
    MIDIListRemove none item = ⟨EFAULT, none, some EFAULT, []⟩ ∧
    MIDIListRemove (some l) 0 = ⟨EINVAL, some l, some EINVAL, []⟩ ∧
    MIDIListApply none info (some f) = ⟨EFAULT, none, some EFAULT⟩ ∧
    MIDIListApply (some l) info none = ⟨EINVAL, some l, some EINVAL⟩ := by
  refine ⟨by decide, by decide, rfl, ?_, rfl, ?_, rfl, rfl⟩ <;>
    simp [MIDIListAdd, MIDIListRemove]

/-- Claim C4: for a non-`NULL` list and non-`NULL` item, `MIDIListRemove`
unlinks every entry equal to the item (not only the first), keeps the
remaining entries in their relative order (a filter of the original),
passes each unlinked entry to the release hook exactly once, and returns
`0` whether or not the item occurs. -/
theorem midiListRemove_removes_all (l : MIDIList) (item : Ptr)
    (hitem : item ≠ 0) :
    MIDIListRemove (some l) item =
      ⟨0, some { l with data := l.data.filter (fun y => y != item) }, none,
        if l.release then List.replicate (l.data.count item) item else []⟩ := by
  simp [MIDIListRemove, hitem, removeLoop_fst, removeLoop_snd _ _ hitem]

/-- Witness for `midiListRemove_removes_all` at the list `[1, 2, 1, 3]` and
item `1`: both copies of `1` are unlinked and released, `2` and `3` stay in
order, and the call returns `0`. -/
theorem midiListRemove_removes_all_witness :
    MIDIListRemove (some ⟨1, true, true, [1, 2, 1, 3]⟩) 1 =
      ⟨0, some ⟨1, true, true, [2, 3]⟩, none, [1, 1]⟩ :=
  (midiListRemove_removes_all ⟨1, true, true, [1, 2, 1, 3]⟩ 1
    (by decide)).trans (by decide)

/-- Counting through the unlink filter: occurrences of the removed item drop
to zero, every other count is untouched. -/
theorem count_filter_ne (item x : Ptr) (l : List Ptr) :
    (l.filter (fun y => y != item)).count x =
      if x = item then 0 else l.count x := by
  by_cases hx : x = item
  · subst hx
    rw [if_pos rfl]
    exact List.count_eq_zero.mpr (by simp [List.mem_filter])
  · rw [if_neg hx]
    induction l with
    | nil => simp
    | cons a l ih =>
      by_cases ha : a = item <;>
        simp [List.filter_cons, ha, List.count_cons, ih, Ne.symm hx]

/-- Hook bookkeeping across any sequence of successful `MIDIListAdd` /
`MIDIListRemove` calls on a list whose two hooks are set: the number of
retain events for a pointer, plus its initial occurrences, equals its final
occurrences plus the number of release events. -/
theorem runOps_count (x : Ptr) (ops : List ListOp) :
    ∀ (l : MIDIList), l.retain = true → l.release = true →
      (runOps l ops).2.1.count x + l.data.count x
        = (runOps l ops).1.data.count x + (runOps l ops).2.2.count x := by
  induction ops with
  | nil => intro l _ _; simp [runOps]
  | cons op ops ih =>
    intro l hr hrel
    cases op with
    | add item =>
      by_cases hi : item = 0
      · subst hi
        simpa [runOps, MIDIListAdd] using ih l hr hrel
      · have h2 := ih { l with data := item :: l.data } hr hrel
        simp only [runOps, MIDIListAdd, if_neg hi, listItemRetain, hr,
          Option.getD_some, List.count_append, List.count_cons] at h2 ⊢
        by_cases hx : x = item
        · subst hx; simp_all; omega
        · simp_all [Ne.symm hx]
    | remove item =>
      by_cases hi : item = 0
      · subst hi
        simpa [runOps, MIDIListRemove] using ih l hr hrel
      · have h2 := ih { l with data := l.data.filter (fun y => y != item) }
          hr hrel
        simp only [runOps, MIDIListRemove, if_neg hi,
          removeLoop_fst, removeLoop_snd _ _ hi, hrel, if_true,
          Option.getD_some, List.count_append] at h2 ⊢
        rw [count_filter_ne] at h2
        by_cases hx : x = item
        · subst hx; simp_all [List.count_replicate]; omega
        · simp_all [List.count_replicate, Ne.symm hx]

/-- Claim C3: `MIDIListAdd` passes exactly the item it links in to the
retain hook, `MIDIListRemove` and `MIDIListDestroy` pass each entry they
unlink to the release hook exactly once (all hooks skipped when the hook
pointer or the item is `NULL`), and consequently, across any sequence of
add/remove calls on a freshly created list with both hooks, the retain
count of every pointer equals its current occurrence count plus its release count —
each stored item has been retained once since insertion and not yet
released. -/
theorem midiList_retain_release_bookkeeping (l : MIDIList) (item x : Ptr)
    (ops : List ListOp) :
    (MIDIListAdd (some l) item true).retains
      = (if item ≠ 0 ∧ l.retain = true then [item] else []) ∧
    (MIDIListRemove (some l) item).releases
      = (if item ≠ 0 ∧ l.release = true
          then List.replicate (l.data.count item) item else []) ∧
    (MIDIListDestroy (some l)).releases
      = (if l.release then l.data.filter (fun y => y != 0) else []) ∧
    (runOps ⟨1, true, true, []⟩ ops).2.1.count x
      = (runOps ⟨1, true, true, []⟩ ops).1.data.count x
        + (runOps ⟨1, true, true, []⟩ ops).2.2.count x := by
  refine ⟨?_, ?_, ?_, ?_⟩
  · by_cases hi : item = 0 <;> simp [MIDIListAdd, listItemRetain, hi]
  · by_cases hi : item = 0
    · simp [MIDIListRemove, hi]
    · cases hrel : l.release <;>
        simp [MIDIListRemove, hi, removeLoop_snd _ _ hi, hrel]
  · simp [MIDIListDestroy, destroyLoop_eq]
  · simpa using runOps_count x ops ⟨1, true, true, []⟩ rfl rfl

/-- Claim C5: starting from any 16-bit initial value, the outbound
RTP sequence number after sending `k` packets equals
`(initial + k) mod 65536` — one increment per packet, wrapping modulo
`2 ^ 16`. -/
theorem seqNum_after_k_packets (initial k : Nat) (h : initial < 65536) :
    seqNumAfter initial k = (initial + k) % 65536 := by
  induction k with
  | zero => simpa [seqNumAfter] using (Nat.mod_eq_of_lt h).symm
  | succ k ih => simp only [seqNumAfter, nextSeqNum, ih]; omega

/-- Witness for `seqNum_after_k_packets` at the wrap point: starting from
`65534`, three packets land on sequence number `1`. -/
theorem seqNum_after_k_packets_witness :
    65534 < 65536 ∧ seqNumAfter 65534 3 = 1 :=
  ⟨by decide, (seqNum_after_k_packets 65534 3 (by decide)).trans (by decide)⟩

/-- Claim C7 counterexample: with `t1 = 0`, a symmetric network delay
`d = 4` and zero clock skew `s = 0`, the synthetic timestamps are `t2 = t1 +
d + s = 4` and `t3 = t1 + 2d = 8`; the count-1 handler computes latency `2`
and offset `2`, not the claimed latency `d = 4` and offset `s = 0`. -/
theorem clock_sync_claim_counterexample :
    onSyncMessage 1 0 4 8 8 = .sendCK2 2 2 ∧
    ¬(computeLatency 0 4 8 = 4 ∧ computeOffset 0 4 8 = 0) := by
  constructor
  · rfl
  · decide

/-- Claim C7 (amended): on a count-1 clock-sync message the completing peer
computes `latency = ((t3−t1) − (t2−t1))/2` and `offset = t2 − t1 − latency`
and sends CK2; for synthetic timestamps `t2 = t1 + d + s`, `t3 = t1 + 2d`
built from a symmetric network delay `d` and clock skew `s`, the computed
latency equals `(d − s) / 2` — not `d` — and the computed offset equals
`(d + s) − (d − s) / 2` — not `s`. -/
theorem clock_sync_count1_values (t1 d s : Int) :
    onSyncMessage 1 t1 (t1 + d + s) (t1 + 2 * d) (t1 + 2 * d)
      = .sendCK2 ((d - s) / 2) ((d + s) - (d - s) / 2) := by
  have h1 : (t1 + 2 * d - t1) - (t1 + d + s - t1) = d - s := by ring
  have h2 : t1 + d + s - t1 = d + s := by ring
  have h3 : (2 : Int) * d - (d + s) = d - s := by ring
  simp [onSyncMessage, computeLatency, computeOffset, h1, h2, h3]

/-- Claim C8: while `Inviting`, an acceptance or rejection packet whose
token differs from the initiator token that was sent leaves the session
unchanged (silently dropped), while a rejection bearing the matching token
moves the session to `Closed`. -/
theorem inviting_token_handling (s : Session) (tok : Nat)
    (hst : s.state = .inviting) (hne : tok ≠ s.sentToken) :
    handleAccepted s tok = s ∧ handleRejected s tok = s ∧
    (handleRejected s s.sentToken).state = .closed := by
  refine ⟨?_, ?_, ?_⟩ <;> simp [handleAccepted, handleRejected, hst, hne]

/-- Witness for `inviting_token_handling`: an inviting session that sent
token `42` drops packets bearing token `7` and closes on a rejection
bearing `42`. -/
theorem inviting_token_handling_witness :
    handleAccepted ⟨.inviting, 42⟩ 7 = ⟨.inviting, 42⟩ ∧
    handleRejected ⟨.inviting, 42⟩ 7 = ⟨.inviting, 42⟩ ∧
    (handleRejected ⟨.inviting, 42⟩ 42).state = .closed :=
  inviting_token_handling ⟨.inviting, 42⟩ 7 rfl (by decide)

/-- Claim C9: the message queue drops nothing — after any number of ticks
the transmitted commands followed by the still-queued commands are exactly
the original queue (original order, transmitted = the first `k·cap`
commands), and once `k·cap` covers the queue length (with a positive cap)
every enqueued command has been transmitted, in order. -/
theorem queue_never_drops (cap k : Nat) (q : List Nat) :
    (queueRun cap k q).1 ++ (queueRun cap k q).2 = q ∧
    (queueRun cap k q).1 = q.take (k * cap) ∧
    (queueRun cap k q).2 = q.drop (k * cap) ∧
    (0 < cap → q.length ≤ k * cap →
      (queueRun cap k q).1 = q ∧ (queueRun cap k q).2 = []) := by
  have key : ∀ (k : Nat) (q : List Nat),
      (queueRun cap k q).1 = q.take (k * cap) ∧
      (queueRun cap k q).2 = q.drop (k * cap) := by
    intro k
    induction k with
    | zero => intro q; simp [queueRun]
    | succ k ih =>
      intro q
      have h := ih (q.drop cap)
      have hs : (k + 1) * cap = cap + k * cap := by ring
      constructor
      · rw [hs, List.take_add]
        simp [queueRun, queueTick, h.1]
      · rw [hs]
        simp [queueRun, queueTick, h.2, List.drop_drop]
  obtain ⟨h1, h2⟩ := key k q
  refine ⟨?_, h1, h2, ?_⟩
  · rw [h1, h2]; exact List.take_append_drop _ _
  · intro _ hlen
    exact ⟨h1.trans (List.take_of_length_le hlen),
      h2.trans (List.drop_eq_nil_of_le hlen)⟩

/-- Witness for `queue_never_drops`: five commands against cap `2` are all
transmitted, in order, within three ticks. -/
theorem queue_never_drops_witness :
    (queueRun 2 3 [1, 2, 3, 4, 5]).1 = [1, 2, 3, 4, 5] ∧
    (queueRun 2 3 [1, 2, 3, 4, 5]).2 = [] :=
  (queue_never_drops 2 3 [1, 2, 3, 4, 5]).2.2.2 (by decide) (by decide)

set_option maxRecDepth 4096 in
/-- Claim C10: the packing macros of `midi.h` round-trip — for 7-bit values
`m`, `l`, `MIDI_MSB`/`MIDI_LSB` recover both halves of `MIDI_LONG_VALUE`,
and for 4-bit values `h`, `l`, `MIDI_HIGH_NIBBLE`/`MIDI_LOW_NIBBLE` recover
both halves of `MIDI_NIBBLE_VALUE`. -/
theorem midi_value_macro_roundtrips :
    (∀ m < 128, ∀ l < 128,
      MIDI_MSB (MIDI_LONG_VALUE m l) = m ∧
      MIDI_LSB (MIDI_LONG_VALUE m l) = l) ∧
    (∀ h < 16, ∀ l < 16,
      MIDI_HIGH_NIBBLE (MIDI_NIBBLE_VALUE h l) = h ∧
      MIDI_LOW_NIBBLE (MIDI_NIBBLE_VALUE h l) = l) := by
  decide

/-- Witness for `midi_value_macro_roundtrips` at `m = 100`, `l = 27` and
`h = 9`, `l = 3`. -/
theorem midi_value_macro_roundtrips_witness :
    (MIDI_MSB (MIDI_LONG_VALUE 100 27) = 100 ∧
      MIDI_LSB (MIDI_LONG_VALUE 100 27) = 27) ∧
    (MIDI_HIGH_NIBBLE (MIDI_NIBBLE_VALUE 9 3) = 9 ∧
      MIDI_LOW_NIBBLE (MIDI_NIBBLE_VALUE 9 3) = 3) :=
  ⟨midi_value_macro_roundtrips.1 100 (by decide) 27 (by decide),
    midi_value_macro_roundtrips.2 9 (by decide) 3 (by decide)⟩

/-- Appending after the continuation bytes commutes with building them. -/
theorem vlqEncodeAux_append (m : Nat) (acc rest : List Nat) :
    vlqEncodeAux m acc ++ rest = vlqEncodeAux m (acc ++ rest) := by
  induction m using Nat.strong_induction_on generalizing acc rest with
  | _ m ih =>
    cases m with
    | zero => simp [vlqEncodeAux]
    | succ n =>
      have hlt : (n + 1) / 128 < n + 1 :=
        Nat.div_lt_self (Nat.succ_pos n) (by omega)
      simp only [vlqEncodeAux]
      rw [ih _ hlt]
      rfl

/-- Decoding the continuation bytes of `m` multiplies the accumulator by
their weight and adds `m`. -/
theorem vlqDecodeAux_encodeAux (m : Nat) (acc : Nat) (l : List Nat) :
    vlqDecodeAux acc (vlqEncodeAux m l)
      = vlqDecodeAux (acc * vlqWeight m + m) l := by
  induction m using Nat.strong_induction_on generalizing acc l with
  | _ m ih =>
    cases m with
    | zero => simp [vlqEncodeAux, vlqWeight]
    | succ n =>
      have hlt : (n + 1) / 128 < n + 1 :=
        Nat.div_lt_self (Nat.succ_pos n) (by omega)
      simp only [vlqEncodeAux]
      rw [ih _ hlt]
      simp only [vlqDecodeAux]
      rw [if_neg (by omega)]
      simp only [Nat.add_sub_cancel]
      have hw : vlqWeight (n + 1) = 128 * vlqWeight ((n + 1) / 128) := by
        simp [vlqWeight]
      have hdm : 128 * ((n + 1) / 128) + (n + 1) % 128 = n + 1 :=
        Nat.div_add_mod (n + 1) 128
      have harg : (acc * vlqWeight ((n + 1) / 128) + (n + 1) / 128) * 128
            + (n + 1) % 128 = acc * vlqWeight (n + 1) + (n + 1) := by
        rw [hw]
        calc (acc * vlqWeight ((n + 1) / 128) + (n + 1) / 128) * 128
              + (n + 1) % 128
            = acc * (128 * vlqWeight ((n + 1) / 128))
              + (128 * ((n + 1) / 128) + (n + 1) % 128) := by ring
          _ = acc * (128 * vlqWeight ((n + 1) / 128)) + (n + 1) := by
              rw [hdm]
      rw [harg]

/-- Round trip of the variable-length-quantity coding of delta-times. -/
theorem vlq_roundtrip (n : Nat) (rest : List Nat) :
    vlqDecode (vlqEncode n ++ rest) = some (n, rest) := by
  unfold vlqDecode vlqEncode
  rw [vlqEncodeAux_append, vlqDecodeAux_encodeAux]
  simp only [List.singleton_append]
  simp only [vlqDecodeAux]
  rw [if_pos (Nat.mod_lt _ (by omega))]
  have h : (0 * vlqWeight (n / 128) + n / 128) * 128 + n % 128 = n := by
    simp only [Nat.zero_mul, Nat.zero_add]
    omega
  rw [h]

/-- Round trip of the MIDI command section: decoding as many commands as
were encoded consumes exactly the encoded bytes and recovers the commands,
delta-times included. -/
theorem cmdsDecode_roundtrip (cmds : List MIDICommand) (rest : List Nat) :
    cmdsDecode cmds.length (cmds.flatMap cmdEncode ++ rest)
      = some (cmds, rest) := by
  induction cmds generalizing rest with
  | nil => simp [cmdsDecode]
  | cons c cs ih =>
    simp only [List.length_cons, List.flatMap_cons, cmdEncode,
      List.append_assoc, cmdsDecode]
    rw [vlq_roundtrip]
    simp only [Option.bind_eq_bind, Option.some_bind]
    rw [vlq_roundtrip]
    simp only [Option.bind_eq_bind, Option.some_bind]
    rw [if_pos (by simp)]
    rw [List.take_left, List.drop_left]
    rw [ih rest]
    rfl

/-- Claim C6: decoding the datagram produced by the RTP Transport encode
of any command list yields exactly the same ordered commands with the same
delta-times (together with the header fields), for in-range header values. -/
theorem transport_encode_decode_roundtrip (pt seq ts ssrc : Nat)
    (cmds : List MIDICommand) (_hseq : seq < 65536)
    (hts : ts < 4294967296) (hssrc : ssrc < 4294967296) :
    transportDecode pt (transportEncode pt seq ts ssrc cmds)
      = some (seq, ts, ssrc, cmds) := by
  unfold transportEncode transportDecode
  dsimp only
  rw [if_pos ⟨rfl, rfl⟩]
  rw [vlq_roundtrip]
  simp only [Option.bind_eq_bind, Option.some_bind]
  rw [← List.append_nil (cmds.flatMap cmdEncode), cmdsDecode_roundtrip]
  simp only [Option.some_bind, if_true]
  have e1 : seq / 256 * 256 + seq % 256 = seq := by omega
  have e2 : ((ts / 16777216 % 256 * 256 + ts / 65536 % 256) * 256
      + ts / 256 % 256) * 256 + ts % 256 = ts := by omega
  have e3 : ((ssrc / 16777216 % 256 * 256 + ssrc / 65536 % 256) * 256
      + ssrc / 256 % 256) * 256 + ssrc % 256 = ssrc := by omega
  rw [e1, e2, e3]

/-- Witness for `transport_encode_decode_roundtrip`: a two-command payload
(note-on after 5 ticks, note-off immediately) survives the encode/decode
round trip under payload type `97`. -/
theorem transport_encode_decode_roundtrip_witness :
    transportDecode 97
        (transportEncode 97 65535 4000000000 123456789
          [⟨5, [144, 60, 100]⟩, ⟨0, [128, 60, 0]⟩])
      = some (65535, 4000000000, 123456789,
          [⟨5, [144, 60, 100]⟩, ⟨0, [128, 60, 0]⟩]) :=
  transport_encode_decode_roundtrip 97 65535 4000000000 123456789
    [⟨5, [144, 60, 100]⟩, ⟨0, [128, 60, 0]⟩]
    (by decide) (by decide) (by decide)
